import Mathlib

/-!
Verification of the bounded-concurrency fetch-with-retry engine of
urls_list_scanner (src/utils/request_manager.py, constants from
src/utils/contants.py).

The engine is shallowly embedded as follows.

Network behaviour is an oracle: each GET attempt of a fetch task either
completes with a response, raises one of the five recognized transient
exception types (ClientConnectorError, ClientResponseError,
ServerTimeoutError, TimeoutError, InvalidURL), or raises some other,
unrecognized exception.  Exceptions are represented by the string the
exception stringifies to.

A Python dict is embedded as an insertion-ordered association list of
key/value pairs, with dict.update replacing existing keys in place and
appending new keys in order; values are embedded as a sum of strings and
integers, since the code stores both in the result record.

The url objects built by the external yarl library are kept abstract: the
constructor RequestManager.init stores URL(url) for each input string and
the fetch task records str(url); the composite str(URL(s)) is a parameter
toUrlStr of the embedding, since yarl is not part of this repository.

The asyncio semaphore gating a fetch task is embedded as a trace of
acquire/release events produced by the async-with block around the task
body; per the Python lowering of async-with, the release runs on every
exit path, normal or exceptional.

asyncio.gather without return_exceptions collects the per-task results in
task order when every task completes normally, and propagates an
exception when some task raises one; it is embedded as sequencing of
Except values.
-/

/-- Value stored in the result dict: the code puts both strings and
integers into it (url and error are strings, the numeric fields are
integers, and content_length is the raw header string when present). -/
inductive JsonVal
  | s (v : String)
  | n (v : Int)
deriving DecidableEq, Repr

/-- A Python dict with string keys, as an insertion-ordered association
list. -/
abbrev Json := List (String × JsonVal)

/-- Python dict.update: keys already present are overwritten in place,
new keys are appended in iteration order of the update dict. -/
def dictUpdate (d : Json) : Json → Json
  | [] => d
  | (k, v) :: rest =>
      if (d.map Prod.fst).contains k then
        dictUpdate (d.map fun p => if p.1 = k then (k, v) else p) rest
      else
        dictUpdate (d ++ [(k, v)]) rest

/-- Dict lookup: value of the first entry with the given key. -/
def jsonGet (d : Json) (k : String) : Option JsonVal :=
  (d.find? fun p => p.1 = k).map Prod.snd

/- Constants from src/utils/contants.py. -/

def TIMEOUT : Nat := 5
def TIMEOUT_DEFAULT : Nat := 60
def LIMIT_OF_ATTEMPTS_TO_RETRY : Nat := 5
def SIMULTANEOUS_CONCURRENT_TASKS : Nat := 51
def REQUESTS_RETRIES_NUM_TO_REMOVE : Nat := 1
def STATUS_CODE_DEFAULT : Int := 0
def CONTENT_LENGTH_DEFAULT : Int := 0
def STREAM_READER_DEFAULT : Int := 0
def BODY_LENGTH_DEFAULT : Int := 0

/-- The parts of an aiohttp response the code reads: response.status, the
content-length response header if any (header values are strings),
response.content.total_bytes, and the byte count of await response.read(). -/
structure Response where
  status : Int
  contentLengthHeader : Option String
  totalBytes : Int
  bodyLen : Int
deriving DecidableEq, Repr

/-- Outcome of one GET attempt (the whole body of the try block:
session.get plus reading the body), supplied by the network oracle. -/
inductive AttemptOutcome
  | ok (r : Response)
  | transient (msg : String)
  | unexpected (msg : String)
deriving DecidableEq, Repr

/-- True when the attempt raised an exception outside the recognized
five-type tuple of the except clause. -/
def AttemptOutcome.isUnexpected : AttemptOutcome → Bool
  | .unexpected _ => true
  | _ => false

/-- Value stored under content_length on success: the Python expression
is a content-length in response.headers and response.headers of that key
or CONTENT_LENGTH_DEFAULT, so a present non-empty header yields the raw
header string, and an absent or empty header yields the integer default. -/
def contentLengthVal : Option String → JsonVal
  | some h => if h = "" then JsonVal.n CONTENT_LENGTH_DEFAULT else JsonVal.s h
  | none => JsonVal.n CONTENT_LENGTH_DEFAULT

/-- The dict passed to result.update in the success branch of the try. -/
def successUpdate (r : Response) : Json :=
  [("status_code", JsonVal.n r.status),
   ("content_length", contentLengthVal r.contentLengthHeader),
   ("stream_reader", JsonVal.n r.totalBytes),
   ("body_length", JsonVal.n r.bodyLen),
   ("error", JsonVal.s "")]

/-- The error field on exhausted retries: the Python expression is e and
str(e) or the fixed fallback text; the exception object e is always
truthy, so this is str(e) when non-empty and the fallback otherwise. -/
def errorString (msg : String) : String :=
  if msg = "" then "Something Went Wrong" else msg

/-- The dict passed to result.update in the attempts-exhausted branch of
the except clause. -/
def failureUpdate (msg : String) : Json :=
  [("status_code", JsonVal.n STATUS_CODE_DEFAULT),
   ("content_length", JsonVal.n CONTENT_LENGTH_DEFAULT),
   ("stream_reader", JsonVal.n STREAM_READER_DEFAULT),
   ("body_length", JsonVal.n BODY_LENGTH_DEFAULT),
   ("error", JsonVal.s (errorString msg))]

/-- What running the retry loop of one fetch task yields: the returned
result dict, or the message of an uncaught exception that propagates out
of the task; plus how many attempts were issued and how many of them
failed with a caught transient exception. -/
structure LoopResult where
  result : Except String Json
  attemptsMade : Nat
  failedAttempts : Nat
deriving Repr

/-- The while loop of RequestManager.fetch over the remaining-attempts
counter.  left is left_of_attempts_to_retry; i numbers the attempts so
the oracle can vary per attempt; f counts caught failed attempts.  The
decrement is by REQUESTS_RETRIES_NUM_TO_REMOVE, which equals 1, matching
the structural step on left.  An unexpected exception is not matched by
the except clause and propagates out of the loop. -/
def fetchLoop (oracle : Nat → AttemptOutcome) (res : Json) :
    Nat → Nat → Nat → LoopResult
  | 0, i, f => ⟨Except.ok res, i, f⟩
  | left + 1, i, f =>
      match oracle i with
      | .ok r => ⟨Except.ok (dictUpdate res (successUpdate r)), i + 1, f⟩
      | .transient msg =>
          if left = 0 then
            ⟨Except.ok (dictUpdate res (failureUpdate msg)), i + 1, f + 1⟩
          else
            fetchLoop oracle res left (i + 1) (f + 1)
      | .unexpected msg => ⟨Except.error msg, i + 1, f⟩

/-- Events on the shared semaphore produced by one fetch task. -/
inductive GateEvent
  | acquire
  | release
deriving DecidableEq, Repr

/-- Python lowering of the async-with block over self.semaphore: acquire
on entry, then the body, and a release on every exit path of the body,
whether it returned normally or an exception is propagating. -/
def withSemaphore (body : LoopResult) : List GateEvent × LoopResult :=
  match body.result with
  | Except.ok _ => ([GateEvent.acquire, GateEvent.release], body)
  | Except.error _ => ([GateEvent.acquire, GateEvent.release], body)

/-- One run of a fetch task: its semaphore trace, its outcome (result
dict or propagating exception), and its attempt counts. -/
structure FetchExec where
  trace : List GateEvent
  outcome : Except String Json
  attemptsMade : Nat
  failedAttempts : Nat
deriving Repr

/-- RequestManager.fetch for one url: inside the semaphore block, start
from the dict holding only the url key (the stored value is str(url) for
the yarl object URL(url), i.e. toUrlStr applied to the input string) and
run the retry loop with the full attempt budget. -/
def fetch (toUrlStr : String → String) (oracle : Nat → AttemptOutcome)
    (url : String) : FetchExec :=
  let gated := withSemaphore
    (fetchLoop oracle [("url", JsonVal.s (toUrlStr url))]
      LIMIT_OF_ATTEMPTS_TO_RETRY 0 0)
  { trace := gated.1
    outcome := gated.2.result
    attemptsMade := gated.2.attemptsMade
    failedAttempts := gated.2.failedAttempts }

/-- The failed_requests_num property setter: assignment adds the assigned
value to the stored counter (the setter body is an increment, not a plain
store). -/
def failed_requests_num_set (current num : Nat) : Nat :=
  current + num

/-- asyncio.gather without return_exceptions over the already-finished
task outcomes: all normal completions yield the list of results in task
order; a raising task makes the await of gather raise. -/
def gatherExcept : List (Except String Json) → Except String (List Json)
  | [] => Except.ok []
  | Except.error e :: _ => Except.error e
  | Except.ok a :: rest => (gatherExcept rest).map fun l => a :: l

/-- The fetch tasks created by make_requests, one per url in list order;
the oracle is indexed by the position of the url so each task sees its
own network behaviour. -/
def runFetches (toUrlStr : String → String)
    (oracles : Nat → Nat → AttemptOutcome) :
    Nat → List String → List FetchExec
  | _, [] => []
  | i, u :: rest =>
      fetch toUrlStr (oracles i) u :: runFetches toUrlStr oracles (i + 1) rest

/-- What a whole run yields: the value of await make_requests (or the
message of the exception it raises), and the final value of the
failed_requests_num counter, accumulated through the setter from its
initial value 0. -/
structure RunExec where
  results : Except String (List Json)
  failedRequestsNum : Nat
deriving Repr

/-- RequestManager.make_requests over an input url list (as called by
create_make_requests, which returns its value unchanged). -/
def makeRequests (toUrlStr : String → String)
    (oracles : Nat → Nat → AttemptOutcome) (urls : List String) : RunExec :=
  let execs := runFetches toUrlStr oracles 0 urls
  { results := gatherExcept (execs.map FetchExec.outcome)
    failedRequestsNum :=
      execs.foldl (fun c e => failed_requests_num_set c e.failedAttempts) 0 }

/- Helper lemmas. -/

lemma errorString_ne_empty (m : String) : errorString m ≠ "" := by
  unfold errorString
  split
  · decide
  · assumption

lemma dictUpdate_url_success (u : JsonVal) (r : Response) :
    dictUpdate [("url", u)] (successUpdate r) = ("url", u) :: successUpdate r := by
  rfl

lemma dictUpdate_url_failure (u : JsonVal) (m : String) :
    dictUpdate [("url", u)] (failureUpdate m) = ("url", u) :: failureUpdate m := by
  rfl

lemma fetchLoop_succ_ok (oracle : Nat → AttemptOutcome) (res : Json)
    {i : Nat} (n f : Nat) {r : Response} (h : oracle i = AttemptOutcome.ok r) :
    fetchLoop oracle res (n + 1) i f =
      ⟨Except.ok (dictUpdate res (successUpdate r)), i + 1, f⟩ := by
  unfold fetchLoop
  rw [h]

lemma fetchLoop_succ_transient (oracle : Nat → AttemptOutcome) (res : Json)
    {i : Nat} (n f : Nat) {m : String}
    (h : oracle i = AttemptOutcome.transient m) :
    fetchLoop oracle res (n + 1) i f =
      if n = 0 then
        ⟨Except.ok (dictUpdate res (failureUpdate m)), i + 1, f + 1⟩
      else
        fetchLoop oracle res n (i + 1) (f + 1) := by
  conv_lhs => unfold fetchLoop
  rw [h]

lemma fetchLoop_succ_unexpected (oracle : Nat → AttemptOutcome) (res : Json)
    {i : Nat} (n f : Nat) {m : String}
    (h : oracle i = AttemptOutcome.unexpected m) :
    fetchLoop oracle res (n + 1) i f = ⟨Except.error m, i + 1, f⟩ := by
  unfold fetchLoop
  rw [h]

lemma fetchLoop_ok_shape (oracle : Nat → AttemptOutcome) (res : Json) :
    ∀ left i f, 0 < left →
      ∀ j, (fetchLoop oracle res left i f).result = Except.ok j →
        (∃ r, j = dictUpdate res (successUpdate r)) ∨
        (∃ m, j = dictUpdate res (failureUpdate m)) := by
  intro left
  induction left with
  | zero => intro i f h; exact absurd h (by omega)
  | succ n ih =>
      intro i f _ j hj
      cases ho : oracle i with
      | ok r =>
          rw [fetchLoop_succ_ok oracle res n f ho] at hj
          simp at hj
          exact Or.inl ⟨r, hj.symm⟩
      | transient m =>
          rw [fetchLoop_succ_transient oracle res n f ho] at hj
          by_cases hn : n = 0
          · rw [if_pos hn] at hj
            simp at hj
            exact Or.inr ⟨m, hj.symm⟩
          · rw [if_neg hn] at hj
            exact ih (i + 1) (f + 1) (Nat.pos_of_ne_zero hn) j hj
      | unexpected m =>
          rw [fetchLoop_succ_unexpected oracle res n f ho] at hj
          simp at hj

lemma fetchLoop_all_transient (oracle : Nat → AttemptOutcome)
    (msgs : Nat → String) (h : ∀ k, oracle k = AttemptOutcome.transient (msgs k))
    (res : Json) :
    ∀ left i f, 0 < left →
      fetchLoop oracle res left i f =
        ⟨Except.ok (dictUpdate res (failureUpdate (msgs (i + left - 1)))),
         i + left, f + left⟩ := by
  intro left
  induction left with
  | zero => intro i f hpos; exact absurd hpos (by omega)
  | succ n ih =>
      intro i f _
      rw [fetchLoop_succ_transient oracle res n f (h i)]
      by_cases hn : n = 0
      · subst hn
        simp
      · rw [if_neg hn]
        rw [ih (i + 1) (f + 1) (Nat.pos_of_ne_zero hn)]
        have h1 : i + 1 + n - 1 = i + (n + 1) - 1 := by omega
        have h2 : i + 1 + n = i + (n + 1) := by omega
        have h3 : f + 1 + n = f + (n + 1) := by omega
        rw [h1, h2, h3]

lemma fetchLoop_ok_of_no_unexpected (oracle : Nat → AttemptOutcome)
    (h : ∀ k, (oracle k).isUnexpected = false) (res : Json) :
    ∀ left i f, ∃ j, (fetchLoop oracle res left i f).result = Except.ok j := by
  intro left
  induction left with
  | zero => intro i f; exact ⟨res, rfl⟩
  | succ n ih =>
      intro i f
      cases ho : oracle i with
      | ok r =>
          rw [fetchLoop_succ_ok oracle res n f ho]
          exact ⟨dictUpdate res (successUpdate r), rfl⟩
      | transient m =>
          rw [fetchLoop_succ_transient oracle res n f ho]
          by_cases hn : n = 0
          · rw [if_pos hn]
            exact ⟨dictUpdate res (failureUpdate m), rfl⟩
          · rw [if_neg hn]
            exact ih (i + 1) (f + 1)
      | unexpected m =>
          have := h i
          rw [ho] at this
          simp [AttemptOutcome.isUnexpected] at this

lemma gatherExcept_map_ok (rs : List Json) :
    gatherExcept (rs.map Except.ok) = Except.ok rs := by
  induction rs with
  | nil => rfl
  | cons a rest ih => simp [gatherExcept, ih, Except.map]

lemma gatherExcept_ok_elim (xs : List (Except String Json)) :
    ∀ rs, gatherExcept xs = Except.ok rs → xs = rs.map Except.ok := by
  induction xs with
  | nil =>
      intro rs h
      simp [gatherExcept] at h
      subst h
      rfl
  | cons x rest ih =>
      intro rs h
      cases x with
      | error e => simp [gatherExcept] at h
      | ok a =>
          simp only [gatherExcept] at h
          cases hg : gatherExcept rest with
          | error e => rw [hg] at h; simp [Except.map] at h
          | ok rs0 =>
              rw [hg] at h
              simp [Except.map] at h
              rw [← h]
              simp [ih rs0 hg]

lemma gatherExcept_ok_of_all_ok (xs : List (Except String Json)) :
    (∀ x ∈ xs, ∃ a, x = Except.ok a) → ∃ rs, gatherExcept xs = Except.ok rs := by
  induction xs with
  | nil => intro _; exact ⟨[], rfl⟩
  | cons x rest ih =>
      intro h
      obtain ⟨a, ha⟩ := h x (List.mem_cons_self x rest)
      obtain ⟨rs, hrs⟩ := ih fun y hy => h y (List.mem_cons_of_mem x hy)
      subst ha
      exact ⟨a :: rs, by simp [gatherExcept, hrs, Except.map]⟩

lemma runFetches_length (t : String → String)
    (oracles : Nat → Nat → AttemptOutcome) :
    ∀ (urls : List String) (i : Nat),
      (runFetches t oracles i urls).length = urls.length := by
  intro urls
  induction urls with
  | nil => intro i; rfl
  | cons u rest ih => intro i; simp [runFetches, ih]

lemma runFetches_get (t : String → String)
    (oracles : Nat → Nat → AttemptOutcome) :
    ∀ (urls : List String) (i j : Nat) (hj : j < urls.length)
      (hj2 : j < (runFetches t oracles i urls).length),
      (runFetches t oracles i urls).get ⟨j, hj2⟩ =
        fetch t (oracles (i + j)) (urls.get ⟨j, hj⟩) := by
  intro urls
  induction urls with
  | nil => intro i j hj; exact absurd hj (by simp)
  | cons u rest ih =>
      intro i j hj hj2
      cases j with
      | zero => simp [runFetches]
      | succ k =>
          have hj1 : k < rest.length := Nat.lt_of_succ_lt_succ hj
          have hj2a : k < (runFetches t oracles (i + 1) rest).length := by
            rw [runFetches_length t oracles rest (i + 1)]
            exact hj1
          have hidx : i + 1 + k = i + (k + 1) := by omega
          have := ih (i + 1) k hj1 hj2a
          rw [hidx] at this
          exact this

lemma runFetches_mem (t : String → String)
    (oracles : Nat → Nat → AttemptOutcome) :
    ∀ (urls : List String) (i : Nat) (x : FetchExec),
      x ∈ runFetches t oracles i urls →
        ∃ k u, x = fetch t (oracles k) u := by
  intro urls
  induction urls with
  | nil => intro i x h; simp [runFetches] at h
  | cons u rest ih =>
      intro i x h
      simp only [runFetches, List.mem_cons] at h
      cases h with
      | inl h => exact ⟨i, u, h⟩
      | inr h => exact ih (i + 1) x h

lemma get_map_eq {α β : Type} (f : α → β) :
    ∀ (l : List α) (j : Nat) (h : j < l.length) (h2 : j < (l.map f).length),
      (l.map f).get ⟨j, h2⟩ = f (l.get ⟨j, h⟩) := by
  intro l
  induction l with
  | nil => intro j h; exact absurd h (by simp)
  | cons a rest ih =>
      intro j h h2
      cases j with
      | zero => rfl
      | succ k => exact ih k (Nat.lt_of_succ_lt_succ h) (by simpa using h2)

lemma foldl_setter_eq_sum (execs : List FetchExec) :
    ∀ c, execs.foldl (fun c e => failed_requests_num_set c e.failedAttempts) c
      = c + (execs.map FetchExec.failedAttempts).sum := by
  induction execs with
  | nil => intro c; simp
  | cons e rest ih =>
      intro c
      simp only [List.foldl, List.map, List.sum_cons]
      rw [ih]
      unfold failed_requests_num_set
      omega

lemma withSemaphore_snd (body : LoopResult) : (withSemaphore body).2 = body := by
  unfold withSemaphore
  split <;> rfl

lemma withSemaphore_fst (body : LoopResult) :
    (withSemaphore body).1 = [GateEvent.acquire, GateEvent.release] := by
  unfold withSemaphore
  split <;> rfl

lemma fetch_outcome (t : String → String) (oracle : Nat → AttemptOutcome)
    (url : String) :
    (fetch t oracle url).outcome =
      (fetchLoop oracle [("url", JsonVal.s (t url))]
        LIMIT_OF_ATTEMPTS_TO_RETRY 0 0).result := by
  simp [fetch, withSemaphore_snd]

lemma fetch_trace (t : String → String) (oracle : Nat → AttemptOutcome)
    (url : String) :
    (fetch t oracle url).trace = [GateEvent.acquire, GateEvent.release] := by
  simp [fetch, withSemaphore_fst]

lemma fetch_attemptsMade (t : String → String) (oracle : Nat → AttemptOutcome)
    (url : String) :
    (fetch t oracle url).attemptsMade =
      (fetchLoop oracle [("url", JsonVal.s (t url))]
        LIMIT_OF_ATTEMPTS_TO_RETRY 0 0).attemptsMade := by
  simp [fetch, withSemaphore_snd]

lemma fetch_failedAttempts (t : String → String)
    (oracle : Nat → AttemptOutcome) (url : String) :
    (fetch t oracle url).failedAttempts =
      (fetchLoop oracle [("url", JsonVal.s (t url))]
        LIMIT_OF_ATTEMPTS_TO_RETRY 0 0).failedAttempts := by
  simp [fetch, withSemaphore_snd]

lemma get_eq_of_list_eq {α : Type} {l1 l2 : List α} (h : l1 = l2) (i : Nat)
    (h1 : i < l1.length) (h2 : i < l2.length) :
    l1.get ⟨i, h1⟩ = l2.get ⟨i, h2⟩ := by
  subst h
  rfl

/- Claim theorems. -/

/-- C1 (counterexample): the engine does not capture every failure into
the error field of a result record: on a url whose first attempt raises
an exception outside the recognized transient set, make_requests raises
that exception to its caller instead of returning a result list. -/
theorem make_requests_unexpected_propagates :
    (makeRequests id (fun _ _ => AttemptOutcome.unexpected "boom")
      ["http://x"]).results = Except.error "boom" := by
  rfl

/-- C1 (amended): make_requests never raises provided every failing
attempt of every url raises one of the five recognized transient
exception types; under that condition it returns a list of result
records, each failure being recorded in the error field.  An exception
outside the recognized set propagates to the caller. -/
theorem make_requests_no_raise_without_unexpected
    (t : String → String) (oracles : Nat → Nat → AttemptOutcome)
    (urls : List String)
    (h : ∀ i k, (oracles i k).isUnexpected = false) :
    ∃ rs, (makeRequests t oracles urls).results = Except.ok rs := by
  simp only [makeRequests]
  apply gatherExcept_ok_of_all_ok
  intro x hx
  obtain ⟨e, he, hex⟩ := List.mem_map.mp hx
  obtain ⟨k, u, hku⟩ := runFetches_mem t oracles urls 0 e he
  subst hku
  rw [← hex, fetch_outcome]
  exact fetchLoop_ok_of_no_unexpected (oracles k) (h k) _ _ _ _

/-- C1 (witness for the amended theorem): a run whose every attempt fails
with a recognized transient exception returns normally. -/
theorem make_requests_no_raise_witness :
    ∃ rs, (makeRequests id (fun _ _ => AttemptOutcome.transient "t")
      ["u"]).results = Except.ok rs :=
  make_requests_no_raise_without_unexpected id
    (fun _ _ => AttemptOutcome.transient "t") ["u"] (fun _ _ => rfl)

/-- C2: whenever make_requests returns, it returns exactly one result
record per input url, in input order: the output length equals the input
length and the i-th returned record is the record of the fetch task run
on the i-th input url; the empty input list yields the empty output
list. -/
theorem make_requests_one_result_per_url_in_order :
    (∀ (t : String → String) (oracles : Nat → Nat → AttemptOutcome)
       (urls : List String) (rs : List Json),
       (makeRequests t oracles urls).results = Except.ok rs →
       rs.length = urls.length ∧
       ∀ (i : Nat) (hi : i < urls.length) (hr : i < rs.length),
         Except.ok (rs.get ⟨i, hr⟩) =
           (fetch t (oracles i) (urls.get ⟨i, hi⟩)).outcome) ∧
    (∀ (t : String → String) (oracles : Nat → Nat → AttemptOutcome),
       (makeRequests t oracles []).results = Except.ok []) := by
  constructor
  · intro t oracles urls rs h
    simp only [makeRequests] at h
    have hmap := gatherExcept_ok_elim _ rs h
    have hlen1 : (runFetches t oracles 0 urls).length = urls.length :=
      runFetches_length t oracles urls 0
    have hlen : rs.length = urls.length := by
      have hc := congrArg List.length hmap
      simp only [List.length_map] at hc
      rw [hlen1] at hc
      exact hc.symm
    refine ⟨hlen, ?_⟩
    intro i hi hr
    have hr2 : i < (runFetches t oracles 0 urls).length := by
      rw [hlen1]
      exact hi
    have hA : i < ((runFetches t oracles 0 urls).map FetchExec.outcome).length := by
      rw [List.length_map]
      exact hr2
    have hB : i < (rs.map (Except.ok : Json → Except String Json)).length := by
      rw [List.length_map]
      exact hr
    calc (Except.ok (rs.get ⟨i, hr⟩) : Except String Json)
        = (rs.map (Except.ok : Json → Except String Json)).get ⟨i, hB⟩ :=
          (get_map_eq (Except.ok : Json → Except String Json) rs i hr hB).symm
      _ = ((runFetches t oracles 0 urls).map FetchExec.outcome).get ⟨i, hA⟩ :=
          get_eq_of_list_eq hmap.symm i hB hA
      _ = ((runFetches t oracles 0 urls).get ⟨i, hr2⟩).outcome :=
          get_map_eq FetchExec.outcome (runFetches t oracles 0 urls) i hr2 hA
      _ = (fetch t (oracles (0 + i)) (urls.get ⟨i, hi⟩)).outcome := by
          rw [runFetches_get t oracles urls 0 i hi hr2]
      _ = (fetch t (oracles i) (urls.get ⟨i, hi⟩)).outcome := by
          rw [Nat.zero_add]
  · intro t oracles
    rfl

/-- Result list of the witness run of C2: both urls complete with a 200
response whose content-length header is 5. -/
def twoOkJsons : List Json :=
  [[("url", JsonVal.s "a"), ("status_code", JsonVal.n 200),
    ("content_length", JsonVal.s "5"), ("stream_reader", JsonVal.n 5),
    ("body_length", JsonVal.n 5), ("error", JsonVal.s "")],
   [("url", JsonVal.s "b"), ("status_code", JsonVal.n 200),
    ("content_length", JsonVal.s "5"), ("stream_reader", JsonVal.n 5),
    ("body_length", JsonVal.n 5), ("error", JsonVal.s "")]]

/-- C2 (witness): a concrete two-url run returns a result list of length
two. -/
theorem make_requests_one_result_per_url_witness :
    twoOkJsons.length = (["a", "b"] : List String).length :=
  (make_requests_one_result_per_url_in_order.1 id
    (fun _ _ => AttemptOutcome.ok ⟨200, some "5", 5, 5⟩) ["a", "b"]
    twoOkJsons (by rfl)).1

/-- Network behaviour of the C3 counterexample run: the single attempt
completes with status 200, a content-length header of 5, and a five-byte
body. -/
def c3Oracle : Nat → AttemptOutcome :=
  fun _ => AttemptOutcome.ok ⟨200, some "5", 5, 5⟩

/-- Result record of the C3 counterexample run. -/
def c3Json : Json :=
  [("url", JsonVal.s "u"), ("status_code", JsonVal.n 200),
   ("content_length", JsonVal.s "5"), ("stream_reader", JsonVal.n 5),
   ("body_length", JsonVal.n 5), ("error", JsonVal.s "")]

/-- C3 (counterexample): the result record does not consist of exactly
the five claimed fields, and content_length is not always an integer: a
completed exchange whose content-length header is 5 yields a record with
a sixth field stream_reader, and its content_length holds the raw header
string, not an integer. -/
theorem result_record_not_five_fields :
    (fetch id c3Oracle "u").outcome = Except.ok c3Json ∧
    c3Json.map Prod.fst =
      ["url", "status_code", "content_length", "stream_reader",
       "body_length", "error"] ∧
    jsonGet c3Json "content_length" = some (JsonVal.s "5") := by
  refine ⟨rfl, rfl, rfl⟩

/-- C3 (amended): every result record produced by a fetch task consists
of exactly the six fields url, status_code, content_length,
stream_reader, body_length, error, in that order, in both the success
case and the exhausted-failure case; its content_length is either the
integer 0 (always so in the failure case, and in the success case when
the content-length header is absent or empty) or the non-empty
content-length header string. -/
theorem result_record_fields (t : String → String)
    (oracle : Nat → AttemptOutcome) (url : String) (j : Json)
    (h : (fetch t oracle url).outcome = Except.ok j) :
    j.map Prod.fst = ["url", "status_code", "content_length",
      "stream_reader", "body_length", "error"] ∧
    ∃ v, jsonGet j "content_length" = some v ∧
      (v = JsonVal.n CONTENT_LENGTH_DEFAULT ∨
        ∃ hdr, hdr ≠ "" ∧ v = JsonVal.s hdr) := by
  rw [fetch_outcome] at h
  have hshape := fetchLoop_ok_shape oracle [("url", JsonVal.s (t url))]
    LIMIT_OF_ATTEMPTS_TO_RETRY 0 0 (by decide) j h
  rcases hshape with ⟨r, hr⟩ | ⟨m, hm⟩
  · subst hr
    rw [dictUpdate_url_success]
    refine ⟨rfl, contentLengthVal r.contentLengthHeader, rfl, ?_⟩
    cases hc : r.contentLengthHeader with
    | none => left; rfl
    | some s =>
        by_cases hs : s = ""
        · left
          rw [hs]
          rfl
        · right
          exact ⟨s, hs, by simp [contentLengthVal, hs]⟩
  · subst hm
    rw [dictUpdate_url_failure]
    exact ⟨rfl, JsonVal.n CONTENT_LENGTH_DEFAULT, rfl, Or.inl rfl⟩

/-- C3 (witness for the amended theorem): the amended field shape at the
concrete counterexample run. -/
theorem result_record_fields_witness :
    c3Json.map Prod.fst = ["url", "status_code", "content_length",
      "stream_reader", "body_length", "error"] ∧
    ∃ v, jsonGet c3Json "content_length" = some v ∧
      (v = JsonVal.n CONTENT_LENGTH_DEFAULT ∨
        ∃ hdr, hdr ≠ "" ∧ v = JsonVal.s hdr) :=
  result_record_fields id c3Oracle "u" c3Json rfl

/-- C4: for a url whose every attempt raises a recognized transient
exception, exactly LIMIT_OF_ATTEMPTS_TO_RETRY = 5 attempts are issued,
and the final record has a non-empty error string and zero status_code,
content_length and body_length. -/
theorem all_transient_exhausts_attempts (t : String → String)
    (oracle : Nat → AttemptOutcome) (url : String) (msgs : Nat → String)
    (h : ∀ k, oracle k = AttemptOutcome.transient (msgs k)) :
    (fetch t oracle url).attemptsMade = LIMIT_OF_ATTEMPTS_TO_RETRY ∧
    ∃ j, (fetch t oracle url).outcome = Except.ok j ∧
      (∃ s, jsonGet j "error" = some (JsonVal.s s) ∧ s ≠ "") ∧
      jsonGet j "status_code" = some (JsonVal.n 0) ∧
      jsonGet j "content_length" = some (JsonVal.n 0) ∧
      jsonGet j "body_length" = some (JsonVal.n 0) := by
  have hloop := fetchLoop_all_transient oracle msgs h
    [("url", JsonVal.s (t url))] LIMIT_OF_ATTEMPTS_TO_RETRY 0 0 (by decide)
  constructor
  · rw [fetch_attemptsMade, hloop]
    simp
  · refine ⟨("url", JsonVal.s (t url)) ::
      failureUpdate (msgs (0 + LIMIT_OF_ATTEMPTS_TO_RETRY - 1)),
      ?_, ⟨errorString (msgs (0 + LIMIT_OF_ATTEMPTS_TO_RETRY - 1)), rfl,
        errorString_ne_empty _⟩, rfl, rfl, rfl⟩
    rw [fetch_outcome, hloop]
    exact congrArg Except.ok (dictUpdate_url_failure _ _)

/-- C4 (witness): the exhausted-failure shape at a concrete url whose
every attempt raises a timeout stringifying to t. -/
theorem all_transient_exhausts_attempts_witness :
    (fetch id (fun _ => AttemptOutcome.transient "t") "u").attemptsMade =
      LIMIT_OF_ATTEMPTS_TO_RETRY ∧
    ∃ j, (fetch id (fun _ => AttemptOutcome.transient "t") "u").outcome =
        Except.ok j ∧
      (∃ s, jsonGet j "error" = some (JsonVal.s s) ∧ s ≠ "") ∧
      jsonGet j "status_code" = some (JsonVal.n 0) ∧
      jsonGet j "content_length" = some (JsonVal.n 0) ∧
      jsonGet j "body_length" = some (JsonVal.n 0) :=
  all_transient_exhausts_attempts id (fun _ => AttemptOutcome.transient "t")
    "u" (fun _ => "t") (fun _ => rfl)

/-- C6: when the first attempt fails with a recognized transient
exception and the second attempt succeeds, the returned record is exactly
the success record of the second attempt: the actual response status
code, an empty error string and the successful response lengths, with no
field recording the earlier failure; two attempts were issued. -/
theorem retry_then_success_reflects_success (t : String → String)
    (oracle : Nat → AttemptOutcome) (url : String) (m : String)
    (r : Response) (h0 : oracle 0 = AttemptOutcome.transient m)
    (h1 : oracle 1 = AttemptOutcome.ok r) :
    (fetch t oracle url).outcome =
      Except.ok (("url", JsonVal.s (t url)) :: successUpdate r) ∧
    jsonGet (("url", JsonVal.s (t url)) :: successUpdate r) "error" =
      some (JsonVal.s "") ∧
    jsonGet (("url", JsonVal.s (t url)) :: successUpdate r) "status_code" =
      some (JsonVal.n r.status) ∧
    (fetch t oracle url).attemptsMade = 2 := by
  have e1 : fetchLoop oracle [("url", JsonVal.s (t url))]
      LIMIT_OF_ATTEMPTS_TO_RETRY 0 0 =
      fetchLoop oracle [("url", JsonVal.s (t url))] 4 1 1 := by
    have e := fetchLoop_succ_transient oracle
      [("url", JsonVal.s (t url))] 4 0 h0
    rw [if_neg (by decide)] at e
    exact e
  have e2 : fetchLoop oracle [("url", JsonVal.s (t url))] 4 1 1 =
      ⟨Except.ok (dictUpdate [("url", JsonVal.s (t url))] (successUpdate r)),
       2, 1⟩ :=
    fetchLoop_succ_ok oracle [("url", JsonVal.s (t url))] 3 1 h1
  have step := e1.trans e2
  refine ⟨?_, rfl, rfl, ?_⟩
  · rw [fetch_outcome, step]
    exact congrArg Except.ok (dictUpdate_url_success _ r)
  · rw [fetch_attemptsMade, step]

/-- C6 (witness): the first attempt fails with a transient error t0 and
the retry succeeds with a 301 response without a content-length header. -/
theorem retry_then_success_witness :
    (fetch id (fun k => if k = 0 then AttemptOutcome.transient "t0"
        else AttemptOutcome.ok ⟨301, none, 7, 9⟩) "a").outcome =
      Except.ok (("url", JsonVal.s "a") :: successUpdate ⟨301, none, 7, 9⟩) ∧
    jsonGet (("url", JsonVal.s "a") :: successUpdate ⟨301, none, 7, 9⟩)
      "error" = some (JsonVal.s "") ∧
    jsonGet (("url", JsonVal.s "a") :: successUpdate ⟨301, none, 7, 9⟩)
      "status_code" = some (JsonVal.n 301) ∧
    (fetch id (fun k => if k = 0 then AttemptOutcome.transient "t0"
        else AttemptOutcome.ok ⟨301, none, 7, 9⟩) "a").attemptsMade = 2 :=
  retry_then_success_reflects_success id
    (fun k => if k = 0 then AttemptOutcome.transient "t0"
      else AttemptOutcome.ok ⟨301, none, 7, 9⟩)
    "a" "t0" ⟨301, none, 7, 9⟩ rfl rfl

/-- C8: every fetch task acquires the shared semaphore once and releases
it exactly once on every exit path: for every network behaviour,
including runs ending in success, in exhausted retries, or in an
unexpected exception propagating out of the task, the task trace is the
acquire followed by exactly one release. -/
theorem gate_released_once_every_path (t : String → String)
    (oracle : Nat → AttemptOutcome) (url : String) :
    (fetch t oracle url).trace = [GateEvent.acquire, GateEvent.release] ∧
    (fetch t oracle url).trace.count GateEvent.release = 1 ∧
    (fetch t oracle url).trace.count GateEvent.acquire = 1 := by
  have ht := fetch_trace t oracle url
  refine ⟨ht, ?_, ?_⟩ <;> rw [ht] <;> rfl

/-- C8 (witness): the trace shape at a concrete task whose only attempt
raises an unexpected exception, the exit path on which the release is
easiest to lose. -/
theorem gate_released_once_witness :
    (fetch id (fun _ => AttemptOutcome.unexpected "boom") "u").trace =
      [GateEvent.acquire, GateEvent.release] ∧
    (fetch id (fun _ => AttemptOutcome.unexpected "boom") "u").trace.count
      GateEvent.release = 1 ∧
    (fetch id (fun _ => AttemptOutcome.unexpected "boom") "u").trace.count
      GateEvent.acquire = 1 :=
  gate_released_once_every_path id (fun _ => AttemptOutcome.unexpected "boom")
    "u"

/-- C9: the failed_requests_num setter adds the assigned value to the
stored counter instead of replacing it; consequently the counter of a
run, starting from 0, ends at the sum over all urls of the number of
failed attempts of that url, and a url whose every attempt fails with a
recognized transient exception contributes LIMIT_OF_ATTEMPTS_TO_RETRY =
5 failed attempts, not 1. -/
theorem failed_requests_counter_sums_failed_attempts :
    (∀ c n, failed_requests_num_set c n = c + n) ∧
    (∀ (t : String → String) (oracles : Nat → Nat → AttemptOutcome)
       (urls : List String),
       (makeRequests t oracles urls).failedRequestsNum =
         ((runFetches t oracles 0 urls).map FetchExec.failedAttempts).sum) ∧
    (∀ (t : String → String) (oracle : Nat → AttemptOutcome) (url : String)
       (msgs : Nat → String),
       (∀ k, oracle k = AttemptOutcome.transient (msgs k)) →
       (fetch t oracle url).failedAttempts = LIMIT_OF_ATTEMPTS_TO_RETRY) := by
  refine ⟨fun c n => rfl, ?_, ?_⟩
  · intro t oracles urls
    simp only [makeRequests]
    rw [foldl_setter_eq_sum]
    exact Nat.zero_add _
  · intro t oracle url msgs h
    rw [fetch_failedAttempts, fetchLoop_all_transient oracle msgs h
      [("url", JsonVal.s (t url))] LIMIT_OF_ATTEMPTS_TO_RETRY 0 0 (by decide)]
    simp

/-- C9 (witness): a single url exhausting its retry budget contributes 5
failed attempts to the counter. -/
theorem failed_requests_counter_witness :
    (fetch id (fun _ => AttemptOutcome.transient "t") "u").failedAttempts =
      LIMIT_OF_ATTEMPTS_TO_RETRY :=
  failed_requests_counter_sums_failed_attempts.2.2 id
    (fun _ => AttemptOutcome.transient "t") "u" (fun _ => "t") (fun _ => rfl)

/-- C10: on exhausted retries the error field is non-empty even when the
final caught exception stringifies to the empty string: the fixed
fallback text Something Went Wrong is recorded in that case. -/
theorem empty_exception_message_fallback (t : String → String)
    (oracle : Nat → AttemptOutcome) (url : String)
    (h : ∀ k, oracle k = AttemptOutcome.transient "") :
    ∃ j, (fetch t oracle url).outcome = Except.ok j ∧
      jsonGet j "error" = some (JsonVal.s "Something Went Wrong") := by
  have hloop := fetchLoop_all_transient oracle (fun _ => "") h
    [("url", JsonVal.s (t url))] LIMIT_OF_ATTEMPTS_TO_RETRY 0 0 (by decide)
  refine ⟨("url", JsonVal.s (t url)) :: failureUpdate "", ?_, rfl⟩
  rw [fetch_outcome, hloop]
  exact congrArg Except.ok (dictUpdate_url_failure (JsonVal.s (t url)) "")

/-- C10 (witness): the fallback error text at a concrete url whose every
attempt raises an exception with an empty message. -/
theorem empty_exception_message_fallback_witness :
    ∃ j, (fetch id (fun _ => AttemptOutcome.transient "") "u").outcome =
        Except.ok j ∧
      jsonGet j "error" = some (JsonVal.s "Something Went Wrong") :=
  empty_exception_message_fallback id (fun _ => AttemptOutcome.transient "")
    "u" (fun _ => rfl)
